import Mathlib

/-!
Verification of the page-to-structured-record extraction pipeline of the
WellTrajectoryAI repository.

The development shallowly embeds the merge core of src/main.py
(extract_and_merge_survey, extract_selected_pages_survey), the page-selection
and display callbacks of src/app.py, and the closed extraction schema of
src/models/directionalsurvey.py.

Modelling conventions:
- The OCR engine and the language-model backend are external capabilities.
  Each page is therefore represented by the outcome that
  extract_survey_structured produces for that page: a validated
  DirectionalSurvey value, a raw dict, or a failure marker.
- The numeric fields of a survey point (Python floats) are embedded as Int:
  the merge core never performs arithmetic on them, it only copies them and,
  in the display layer, compares md keys, and integer comparison has the same
  order semantics as comparison of non-NaN floats.
- Python None on string-valued slots is Option.none; a Python dict whose
  values are metadata strings is a function String to Option String
  (dict.get returns None both for an absent key and for a stored None).
- Machine-level byte encodings are not modelled; dict equality stands for the
  byte-identical JSON output of equal dicts, since json.dump is injective on
  the dict values in play.
-/

/-- One station of the wellbore trajectory, src/models/directionalsurvey.py.
All six numeric fields are required. -/
structure SurveyPoint where
  md : Int
  inc : Int
  azi : Int
  tvd : Int
  ns : Int
  ew : Int
deriving DecidableEq, Repr

/-- The document-level record of src/models/directionalsurvey.py: uwi and
survey_points are required, the remaining 23 metadata fields are nullable
strings. -/
structure DirectionalSurvey where
  uwi : String
  survey_points : List SurveyPoint
  operator : Option String
  vendor : Option String
  contact_info : Option String
  county : Option String
  method : Option String
  north_ref : Option String
  shl_lat : Option String
  shl_lon : Option String
  shl_x : Option String
  shl_y : Option String
  bhl_lat : Option String
  bhl_lon : Option String
  bhl_x : Option String
  bhl_y : Option String
  lease_location : Option String
  job_number : Option String
  map_zone : Option String
  map_system : Option String
  geo_datum : Option String
  system_datum : Option String
  ground_level_elevation : Option String
  datum_elevation : Option String
  date_created : Option String
deriving DecidableEq, Repr

/-- The metadata_fields list of src/main.py (identical in main,
extract_and_merge_survey and extract_selected_pages_survey), in source order. -/
def metadata_fields : List String :=
  ["uwi", "operator", "vendor", "contact_info", "county", "method", "north_ref",
   "shl_lat", "shl_lon", "shl_x", "shl_y", "bhl_lat", "bhl_lon", "bhl_x", "bhl_y",
   "lease_location", "job_number", "map_system", "geo_datum", "system_datum", "map_zone",
   "ground_level_elevation", "datum_elevation", "date_created"]

/-- The Python test val in [None, ""] used by the merge loop and the final
filter of src/main.py. -/
def pyEmpty : Option String → Bool
  | none => true
  | some s => s == ""

/-- model_dump() of a DirectionalSurvey, restricted to the string-valued
metadata slots that the merge loop reads (the survey_points entry of the real
model_dump is a list and is consumed separately, never through this map). -/
def DirectionalSurvey.dump (d : DirectionalSurvey) : String → Option String :=
  fun f =>
    if f = "uwi" then some d.uwi
    else if f = "operator" then d.operator
    else if f = "vendor" then d.vendor
    else if f = "contact_info" then d.contact_info
    else if f = "county" then d.county
    else if f = "method" then d.method
    else if f = "north_ref" then d.north_ref
    else if f = "shl_lat" then d.shl_lat
    else if f = "shl_lon" then d.shl_lon
    else if f = "shl_x" then d.shl_x
    else if f = "shl_y" then d.shl_y
    else if f = "bhl_lat" then d.bhl_lat
    else if f = "bhl_lon" then d.bhl_lon
    else if f = "bhl_x" then d.bhl_x
    else if f = "bhl_y" then d.bhl_y
    else if f = "lease_location" then d.lease_location
    else if f = "job_number" then d.job_number
    else if f = "map_zone" then d.map_zone
    else if f = "map_system" then d.map_system
    else if f = "geo_datum" then d.geo_datum
    else if f = "system_datum" then d.system_datum
    else if f = "ground_level_elevation" then d.ground_level_elevation
    else if f = "datum_elevation" then d.datum_elevation
    else if f = "date_created" then d.date_created
    else none

/-- The value of the Python variable structured after
extract_survey_structured, as discriminated by the isinstance chain of the
merge loops in src/main.py:
- ds: a validated DirectionalSurvey instance;
- dict pts meta: a plain dict; pts is some l when the dict has a
  survey_points key holding the point list l, none when it has no such key;
  meta is the dict restricted to its string-valued metadata entries;
- failure: any other value, in particular the empty dict that
  extract_survey_structured returns when the backend raises. -/
inductive Extracted where
  | ds (d : DirectionalSurvey)
  | dict (pts : Option (List SurveyPoint)) (meta : String → Option String)
  | failure

/-- The survey points a page outcome contributes to all_survey_points: the
isinstance chain extends with structured.survey_points for a DirectionalSurvey,
with structured["survey_points"] for a dict holding that key, and with nothing
otherwise. -/
def pagePoints : Extracted → List SurveyPoint
  | Extracted.ds d => d.survey_points
  | Extracted.dict (some pts) _ => pts
  | Extracted.dict none _ => []
  | Extracted.failure => []

/-- The page_metadata dict a page outcome yields in the merge loops:
model_dump() for a DirectionalSurvey, dict(structured) for a dict holding
survey_points, and the empty dict otherwise (the else branch). -/
def pageMeta : Extracted → String → Option String
  | Extracted.ds d => d.dump
  | Extracted.dict (some _) meta => meta
  | Extracted.dict none _ => fun _ => none
  | Extracted.failure => fun _ => none

/-- One iteration of the inner loop of src/main.py lines 359-363:
val = page_metadata.get(field); if val not in [None, ""] and
merged_metadata[field] in [None, ""]: merged_metadata[field] = val. -/
def mergeFieldStep (page_metadata : String → Option String)
    (a : String → Option String) (field : String) : String → Option String :=
  if !pyEmpty (page_metadata field) && pyEmpty (a field) then
    Function.update a field (page_metadata field)
  else a

/-- The inner for-field loop of the merge: fold mergeFieldStep over
metadata_fields. -/
def mergePageMeta (page_metadata acc : String → Option String) :
    String → Option String :=
  metadata_fields.foldl (mergeFieldStep page_metadata) acc

/-- The per-page merge loop: thread the all_survey_points accumulator and the
merged_metadata accumulator through a list of page outcomes in order. -/
def mergeAux : List Extracted → List SurveyPoint → (String → Option String) →
    List SurveyPoint × (String → Option String)
  | [], pts, acc => (pts, acc)
  | p :: rest, pts, acc =>
      mergeAux rest (pts ++ pagePoints p) (mergePageMeta (pageMeta p) acc)

/-- The merge loop started from the empty accumulators of src/main.py:
all_survey_points = [] and merged_metadata with every field None. -/
def mergeOutcomes (pages : List Extracted) :
    List SurveyPoint × (String → Option String) :=
  mergeAux pages [] (fun _ => none)

/-- A value of the final merged dict: a metadata string, the survey point
list, or the Python null that the final filter is meant to exclude. -/
inductive MergedVal where
  | null
  | str (s : String)
  | pts (l : List SurveyPoint)
deriving DecidableEq, Repr

/-- The entry the final dict comprehension of src/main.py keeps for key k:
the accumulator value when it is neither None nor the empty string. -/
def keptVal (acc : String → Option String) (k : String) : Option MergedVal :=
  match acc k with
  | none => none
  | some v => if v == "" then none else some (MergedVal.str v)

/-- Lines 365-368 of src/main.py: filter the merged_metadata dict down to its
non-None, non-empty entries (insertion order is metadata_fields order) and
append a survey_points entry exactly when all_survey_points is non-empty. -/
def finalize (acc : String → Option String) (all_survey_points : List SurveyPoint) :
    List (String × MergedVal) :=
  (metadata_fields.filterMap fun k => (keptVal acc k).map fun v => (k, v)) ++
    (if all_survey_points.isEmpty then []
     else [("survey_points", MergedVal.pts all_survey_points)])

/-- extract_and_merge_survey of src/main.py, with pdf_to_images, OCR and the
extraction backend absorbed into the per-page outcomes: every page of the
document is processed in page order and the merged dict is returned. -/
def extract_and_merge_survey (pages : List Extracted) : List (String × MergedVal) :=
  finalize (mergeOutcomes pages).2 (mergeOutcomes pages).1

/-- Python list subscription with an Int index: non-negative indices address
from the front, negative indices address from the back, and an index below
minus the length is an IndexError (modelled as none). -/
def pyGet (l : List Extracted) (i : Int) : Option Extracted :=
  if 0 ≤ i then l.get? i.toNat
  else if i + l.length < 0 then none
  else l.get? (i + l.length).toNat

/-- The for page_idx in selected_page_indices loop of
extract_selected_pages_survey, src/main.py lines 322-363: an index at or above
the page count is skipped with a warning, any other index subscripts
pages_data (an IndexError aborts the call), and the subscripted page goes
through the same merge step as in extract_and_merge_survey. -/
def processSelectedAux (pages_data : List Extracted) :
    List Int → List SurveyPoint → (String → Option String) →
    Except Unit (List SurveyPoint × (String → Option String))
  | [], pts, acc => Except.ok (pts, acc)
  | page_idx :: rest, pts, acc =>
      if page_idx ≥ (pages_data.length : Int) then
        processSelectedAux pages_data rest pts acc
      else
        match pyGet pages_data page_idx with
        | none => Except.error ()
        | some page =>
            processSelectedAux pages_data rest (pts ++ pagePoints page)
              (mergePageMeta (pageMeta page) acc)

/-- extract_selected_pages_survey of src/main.py: run the selected-page loop
from the empty accumulators and return the finalized merged dict. -/
def extract_selected_pages_survey (pages_data : List Extracted)
    (selected_page_indices : List Int) : Except Unit (List (String × MergedVal)) :=
  match processSelectedAux pages_data selected_page_indices [] (fun _ => none) with
  | Except.error e => Except.error e
  | Except.ok (pts, acc) => Except.ok (finalize acc pts)

/-- The pages that the selected-page loop actually merges, in loop order:
indices at or above the page count drop out, the rest subscript pages_data. -/
def resolvePages (pages_data : List Extracted) (selected : List Int) :
    List Extracted :=
  selected.filterMap fun i =>
    if i ≥ (pages_data.length : Int) then none else pyGet pages_data i

/-- The survey_points entry of a merged dict, empty when the key is absent. -/
def mergedPoints (m : List (String × MergedVal)) : List SurveyPoint :=
  match List.lookup "survey_points" m with
  | some (MergedVal.pts l) => l
  | _ => []

/-- The string-valued metadata a merged dict yields when it is fed back into
the merge loop as page_metadata (dict(structured) followed by .get(field)). -/
def metaOfMerged (m : List (String × MergedVal)) (f : String) : Option String :=
  match List.lookup f m with
  | some (MergedVal.str s) => some s
  | _ => none

/-- A merged dict viewed as an extraction outcome by the isinstance chain of
the merge loops: it is a plain dict, carrying its survey point list exactly
when it has a survey_points key. -/
def outcomeOfMerged (m : List (String × MergedVal)) : Extracted :=
  match List.lookup "survey_points" m with
  | some (MergedVal.pts pts) => Extracted.dict (some pts) (metaOfMerged m)
  | _ => Extracted.dict none (metaOfMerged m)

/-- The display sort of process_selected_pages, src/app.py lines 535-543:
table_data starts empty; when the survey dict holds a non-empty point list the
table shows it sorted by ascending md. Python sorted with the md key is the
stable insertion by md-less-or-equal. -/
def displayTable (survey : List (String × MergedVal)) : List SurveyPoint :=
  match List.lookup "survey_points" survey with
  | some (MergedVal.pts points) =>
      if points.isEmpty then []
      else List.insertionSort (fun a b => a.md ≤ b.md) points
  | _ => []

/-- process_selected_pages of src/app.py restricted to its data outputs: the
survey store receives the merged dict unchanged and the table receives the
sorted view of its points. -/
def process_selected_pages (pages_data : List Extracted)
    (selected_pages : List Int) :
    Except Unit (List (String × MergedVal) × List SurveyPoint) :=
  match extract_selected_pages_survey pages_data selected_pages with
  | Except.error e => Except.error e
  | Except.ok survey => Except.ok (survey, displayTable survey)

/-- The selected page indices collected by
update_page_selection_from_checkboxes, src/app.py lines 486-491, before
sorting: index i contributes checkbox_ids[i] when checkbox i is checked and
i is within checkbox_ids. -/
def collectChecked (checkbox_values : List Bool) (checkbox_ids : List Nat) :
    List Nat :=
  checkbox_values.enum.filterMap fun ic =>
    if ic.2 && decide (ic.1 < checkbox_ids.length) then checkbox_ids.get? ic.1
    else none

/-- update_page_selection_from_checkboxes of src/app.py: empty pages_data
yields an empty selection, otherwise the collected indices are returned
sorted ascending. -/
def update_page_selection_from_checkboxes (checkbox_values : List Bool)
    (checkbox_ids : List Nat) (pages_data : List Extracted) : List Nat :=
  if pages_data.isEmpty then []
  else List.insertionSort (fun a b => a ≤ b) (collectChecked checkbox_values checkbox_ids)

/-- The declared field set of the DirectionalSurvey schema,
src/models/directionalsurvey.py: uwi, survey_points and the 23 metadata
fields. -/
def declaredSurveyFields : List String := "survey_points" :: metadata_fields

/-- Modelled from the spec: the raw output of the extraction backend inside
services.llm.text_to_llm, which is not under src/. Per spec section 4.2 the
backend returns a JSON object; keys lists the field names it contains and
parse is the record that field-wise typed parsing of the declared fields
would produce. -/
structure BackendOutput where
  keys : List String
  parse : Option DirectionalSurvey

/-- Modelled from the spec: schema validation inside text_to_llm against the
closed DirectionalSurvey schema (Config extra = "forbid" in
src/models/directionalsurvey.py): any key outside the declared field set
fails the whole record. -/
def schemaValidate (out : BackendOutput) : Option DirectionalSurvey :=
  if out.keys.all (fun k => decide (k ∈ declaredSurveyFields)) then out.parse
  else none

/-- extract_survey_structured of src/main.py lines 125-132 composed with the
spec-modelled text_to_llm: a validation failure raises inside the try block
and the except branch returns the empty dict, which the merge loops treat as
the failure branch (no points, empty page_metadata). -/
def extract_survey_structured (out : BackendOutput) : Extracted :=
  match schemaValidate out with
  | some d => Extracted.ds d
  | none => Extracted.failure

/-- The first non-null, non-empty value of a list of per-page values. Stated
from the words of the spec (section 4.3, scalar metadata rule) to compare the
merge implementation against. -/
def specFirstNonEmpty (vals : List (Option String)) : Option String :=
  (vals.find? fun v => !pyEmpty v).join

/-- A page outcome whose extraction succeeded in the sense of the merge loops:
it contributes through one of the two non-else branches. -/
def extractionSucceeded : Extracted → Bool
  | Extracted.ds _ => true
  | Extracted.dict (some _) _ => true
  | Extracted.dict none _ => false
  | Extracted.failure => false

/-- Python dict item assignment on an insertion-ordered dict: an existing
key keeps its position and receives the new value, a new key is appended at
the end. -/
def setKey (m : List (String × MergedVal)) (k : String) (v : MergedVal) :
    List (String × MergedVal) :=
  if m.any (fun kv => kv.1 == k) then
    m.map fun kv => if kv.1 == k then (kv.1, v) else kv
  else m ++ [(k, v)]

/-- update_survey_from_table of src/app.py lines 567-571: when the survey
store holds a truthy (non-empty) record and the table data is not None
(a table update always carries a list), the record's survey_points entry is
assigned the table rows. -/
def update_survey_from_table (table_data : List SurveyPoint)
    (survey : List (String × MergedVal)) : List (String × MergedVal) :=
  if survey.isEmpty then survey
  else setKey survey "survey_points" (MergedVal.pts table_data)

/-- The survey store after the Process click in the wired app: the table
data written by process_selected_pages is an Input of
update_survey_from_table, and Dash fires that callback on the programmatic
table update, writing the md-sorted table rows back into the store. -/
def storeAfterProcess (pages_data : List Extracted)
    (selected_pages : List Int) :
    Except Unit (List (String × MergedVal)) :=
  match process_selected_pages pages_data selected_pages with
  | Except.error e => Except.error e
  | Except.ok (survey, table) => Except.ok (update_survey_from_table table survey)

/-! Basic facts about the field list and the emptiness test. -/

lemma metadata_fields_nodup : metadata_fields.Nodup := by decide

lemma sp_not_mem_metadata_fields : "survey_points" ∉ metadata_fields := by decide

lemma pyEmpty_eq_false_iff (v : Option String) :
    pyEmpty v = false ↔ ∃ s, v = some s ∧ s ≠ "" := by
  cases v with
  | none => simp [pyEmpty]
  | some s =>
      simp only [pyEmpty]
      constructor
      · intro h
        exact ⟨s, rfl, by simpa using h⟩
      · rintro ⟨t, ht, hne⟩
        cases ht
        simpa using hne

/-! The inner for-field loop: pointwise characterization of the fold of
mergeFieldStep over a duplicate-free field list. -/

lemma foldl_mergeFieldStep_notmem (fields : List String)
    (pm acc : String → Option String) (f : String) (hf : f ∉ fields) :
    (fields.foldl (mergeFieldStep pm) acc) f = acc f := by
  induction fields generalizing acc with
  | nil => rfl
  | cons g rest ih =>
      have hfg : f ≠ g := fun h => hf (h ▸ List.mem_cons_self g rest)
      have hrest : f ∉ rest := fun h => hf (List.mem_cons_of_mem g h)
      have hstep : (mergeFieldStep pm acc g) f = acc f := by
        unfold mergeFieldStep
        by_cases hc : (!pyEmpty (pm g) && pyEmpty (acc g)) = true
        · simp [hc, Function.update_noteq hfg]
        · simp [hc]
      rw [List.foldl_cons, ih (mergeFieldStep pm acc g) hrest, hstep]

lemma foldl_mergeFieldStep_mem (fields : List String)
    (pm acc : String → Option String) (f : String) (hnd : fields.Nodup)
    (hf : f ∈ fields) :
    (fields.foldl (mergeFieldStep pm) acc) f =
      if !pyEmpty (pm f) && pyEmpty (acc f) then pm f else acc f := by
  induction fields generalizing acc with
  | nil => cases hf
  | cons g rest ih =>
      rcases List.nodup_cons.mp hnd with ⟨hg, hndrest⟩
      by_cases hfg : f = g
      · subst hfg
        have hnotrest : f ∉ rest := hg
        have hfold := foldl_mergeFieldStep_notmem rest pm (mergeFieldStep pm acc f) f hnotrest
        rw [List.foldl_cons, hfold]
        unfold mergeFieldStep
        by_cases hc : (!pyEmpty (pm f) && pyEmpty (acc f)) = true
        · simp [hc, Function.update_same]
        · simp [hc]
      · have hfrest : f ∈ rest := by
          rcases List.mem_cons.mp hf with h | h
          · exact absurd h hfg
          · exact h
        have hstep : (mergeFieldStep pm acc g) f = acc f := by
          unfold mergeFieldStep
          by_cases hc : (!pyEmpty (pm g) && pyEmpty (acc g)) = true
          · simp [hc, Function.update_noteq hfg]
          · simp [hc]
        rw [List.foldl_cons, ih (mergeFieldStep pm acc g) hndrest hfrest, hstep]

lemma mergePageMeta_mem (pm acc : String → Option String) (f : String)
    (hf : f ∈ metadata_fields) :
    mergePageMeta pm acc f =
      if !pyEmpty (pm f) && pyEmpty (acc f) then pm f else acc f :=
  foldl_mergeFieldStep_mem metadata_fields pm acc f metadata_fields_nodup hf

lemma mergePageMeta_notmem (pm acc : String → Option String) (f : String)
    (hf : f ∉ metadata_fields) : mergePageMeta pm acc f = acc f :=
  foldl_mergeFieldStep_notmem metadata_fields pm acc f hf

lemma mergePageMeta_of_nonempty (pm acc : String → Option String) (f : String)
    (h : pyEmpty (acc f) = false) : mergePageMeta pm acc f = acc f := by
  by_cases hf : f ∈ metadata_fields
  · rw [mergePageMeta_mem pm acc f hf, h]
    simp
  · exact mergePageMeta_notmem pm acc f hf

/-! The per-page merge loop: the point accumulator concatenates and the
metadata accumulator realizes the first-non-empty rule. -/

lemma mergeAux_fst (ps : List Extracted) (pts : List SurveyPoint)
    (acc : String → Option String) :
    (mergeAux ps pts acc).1 = pts ++ (ps.map pagePoints).flatten := by
  induction ps generalizing pts acc with
  | nil => simp [mergeAux]
  | cons p rest ih =>
      simp [mergeAux, ih, List.append_assoc]

lemma mergeAux_snd_of_nonempty (ps : List Extracted) (pts : List SurveyPoint)
    (acc : String → Option String) (f : String)
    (h : pyEmpty (acc f) = false) :
    (mergeAux ps pts acc).2 f = acc f := by
  induction ps generalizing pts acc with
  | nil => rfl
  | cons p rest ih =>
      have hstep : mergePageMeta (pageMeta p) acc f = acc f :=
        mergePageMeta_of_nonempty _ _ _ h
      have h2 : pyEmpty ((mergePageMeta (pageMeta p) acc) f) = false := by
        rw [hstep]; exact h
      simpa [mergeAux, hstep] using ih (pts ++ pagePoints p) _ h2

lemma mergeAux_snd_none (ps : List Extracted) (pts : List SurveyPoint)
    (acc : String → Option String) (f : String) (hf : f ∈ metadata_fields)
    (h : acc f = none) :
    (mergeAux ps pts acc).2 f =
      specFirstNonEmpty (ps.map fun p => pageMeta p f) := by
  induction ps generalizing pts acc with
  | nil => simpa [mergeAux, specFirstNonEmpty] using h
  | cons p rest ih =>
      have hacc : pyEmpty (acc f) = true := by rw [h]; rfl
      by_cases hp : pyEmpty (pageMeta p f) = true
      · have hstep : mergePageMeta (pageMeta p) acc f = acc f := by
          rw [mergePageMeta_mem _ _ _ hf, hp]
          simp
        have hrec := ih (pts ++ pagePoints p) (mergePageMeta (pageMeta p) acc)
          (hstep.trans h)
        simp only [mergeAux, List.map_cons, specFirstNonEmpty, List.find?_cons, hp]
        simpa [specFirstNonEmpty] using hrec
      · have hpf : pyEmpty (pageMeta p f) = false := by
          cases hx : pyEmpty (pageMeta p f)
          · rfl
          · exact absurd hx hp
        have hstep : mergePageMeta (pageMeta p) acc f = pageMeta p f := by
          rw [mergePageMeta_mem _ _ _ hf, hpf, hacc]
          simp
        have h2 : pyEmpty ((mergePageMeta (pageMeta p) acc) f) = false := by
          rw [hstep]; exact hpf
        have hrun : (mergeAux rest (pts ++ pagePoints p)
            (mergePageMeta (pageMeta p) acc)).2 f = pageMeta p f :=
          (mergeAux_snd_of_nonempty _ _ _ _ h2).trans hstep
        rcases (pyEmpty_eq_false_iff _).mp hpf with ⟨s, hs, _⟩
        simp only [mergeAux, List.map_cons, specFirstNonEmpty, List.find?_cons, hpf]
        simp [hrun, hs]

lemma mergeAux_snd_notmem (ps : List Extracted) (pts : List SurveyPoint)
    (acc : String → Option String) (f : String) (hf : f ∉ metadata_fields) :
    (mergeAux ps pts acc).2 f = acc f := by
  induction ps generalizing pts acc with
  | nil => rfl
  | cons p rest ih =>
      simpa [mergeAux, mergePageMeta_notmem _ _ _ hf] using
        (ih (pts ++ pagePoints p) (mergePageMeta (pageMeta p) acc)).trans
          (mergePageMeta_notmem _ _ _ hf)

lemma mergeOutcomes_fst (pages : List Extracted) :
    (mergeOutcomes pages).1 = (pages.map pagePoints).flatten := by
  simpa using mergeAux_fst pages [] (fun _ => none)

lemma mergeOutcomes_snd (pages : List Extracted) (f : String)
    (hf : f ∈ metadata_fields) :
    (mergeOutcomes pages).2 f =
      specFirstNonEmpty (pages.map fun p => pageMeta p f) :=
  mergeAux_snd_none pages [] (fun _ => none) f hf rfl

lemma mergeOutcomes_snd_notmem (pages : List Extracted) (f : String)
    (hf : f ∉ metadata_fields) : (mergeOutcomes pages).2 f = none :=
  mergeAux_snd_notmem pages [] (fun _ => none) f hf

lemma specFirstNonEmpty_ne_empty (vals : List (Option String)) (s : String)
    (h : specFirstNonEmpty vals = some s) : s ≠ "" := by
  unfold specFirstNonEmpty at h
  have hfind := Option.join_eq_some.mp h
  have hp := List.find?_some hfind
  rcases (pyEmpty_eq_false_iff (some s)).mp (by simpa using hp) with ⟨t, ht, hne⟩
  cases ht
  exact hne

/-! Lookup lemmas for the finalized merged dict. -/

lemma lookup_append_mv (f : String) (l1 l2 : List (String × MergedVal)) :
    List.lookup f (l1 ++ l2) =
      match List.lookup f l1 with
      | some v => some v
      | none => List.lookup f l2 := by
  induction l1 with
  | nil => simp
  | cons kv rest ih =>
      rcases kv with ⟨k, v⟩
      by_cases hk : (f == k) = true
      · simp [List.lookup_cons, hk]
      · have : (f == k) = false := by
          cases hx : (f == k)
          · rfl
          · exact absurd hx hk
        simp [List.lookup_cons, this, ih]

lemma lookup_filterMap_keyed_notmem (fields : List String)
    (g : String → Option MergedVal) (f : String) (hf : f ∉ fields) :
    List.lookup f (fields.filterMap fun k => (g k).map fun v => (k, v)) = none := by
  induction fields with
  | nil => simp
  | cons k rest ih =>
      have hfk : f ≠ k := fun h => hf (h ▸ List.mem_cons_self k rest)
      have hrest : f ∉ rest := fun h => hf (List.mem_cons_of_mem k h)
      rw [List.filterMap_cons]
      cases hg : g k with
      | none => simpa using ih hrest
      | some v =>
          have hbf : (f == k) = false := beq_eq_false_iff_ne.mpr hfk
          simp [List.lookup_cons, hbf, ih hrest]

lemma lookup_filterMap_keyed (fields : List String)
    (g : String → Option MergedVal) (f : String) (hnd : fields.Nodup)
    (hf : f ∈ fields) :
    List.lookup f (fields.filterMap fun k => (g k).map fun v => (k, v)) = g f := by
  induction fields with
  | nil => cases hf
  | cons k rest ih =>
      rcases List.nodup_cons.mp hnd with ⟨hk, hndrest⟩
      rw [List.filterMap_cons]
      by_cases hfk : f = k
      · subst hfk
        cases hg : g f with
        | none => simpa [hg] using lookup_filterMap_keyed_notmem rest g f hk
        | some v => simp [List.lookup_cons, hg]
      · have hfrest : f ∈ rest := by
          rcases List.mem_cons.mp hf with h | h
          · exact absurd h hfk
          · exact h
        cases hg : g k with
        | none => exact ih hndrest hfrest
        | some v =>
            have hbf : (f == k) = false := beq_eq_false_iff_ne.mpr hfk
            simp [List.lookup_cons, hbf, ih hndrest hfrest]

lemma lookup_finalize_mem (acc : String → Option String)
    (pts : List SurveyPoint) (f : String) (hf : f ∈ metadata_fields) :
    List.lookup f (finalize acc pts) = keptVal acc f := by
  unfold finalize
  rw [lookup_append_mv,
    lookup_filterMap_keyed metadata_fields (keptVal acc) f metadata_fields_nodup hf]
  cases hv : keptVal acc f with
  | some v => rfl
  | none =>
      have hfs : f ≠ "survey_points" := fun h => sp_not_mem_metadata_fields (h ▸ hf)
      by_cases hpts : pts.isEmpty
      · simp [hpts]
      · have : (f == "survey_points") = false := beq_eq_false_iff_ne.mpr hfs
        simp [hpts, List.lookup_cons, this]

lemma lookup_finalize_sp (acc : String → Option String) (pts : List SurveyPoint) :
    List.lookup "survey_points" (finalize acc pts) =
      if pts.isEmpty then none else some (MergedVal.pts pts) := by
  unfold finalize
  rw [lookup_append_mv,
    lookup_filterMap_keyed_notmem metadata_fields (keptVal acc) "survey_points"
      sp_not_mem_metadata_fields]
  by_cases hpts : pts.isEmpty
  · simp [hpts]
  · simp [hpts, List.lookup_cons]

lemma mergedPoints_finalize (acc : String → Option String)
    (pts : List SurveyPoint) : mergedPoints (finalize acc pts) = pts := by
  unfold mergedPoints
  rw [lookup_finalize_sp]
  by_cases hpts : pts.isEmpty
  · simp [hpts, List.isEmpty_iff.mp hpts]
  · simp [hpts]

lemma finalize_val_sound (acc : String → Option String) (pts : List SurveyPoint)
    (kv : String × MergedVal) (h : kv ∈ finalize acc pts) :
    (∃ s, kv.2 = MergedVal.str s ∧ s ≠ "") ∨
      (kv.2 = MergedVal.pts pts ∧ pts ≠ []) := by
  unfold finalize at h
  rcases List.mem_append.mp h with h1 | h2
  · rcases List.mem_filterMap.mp h1 with ⟨k, _, hk⟩
    left
    unfold keptVal at hk
    cases hacc : acc k with
    | none => rw [hacc] at hk; simp at hk
    | some v =>
        rw [hacc] at hk
        cases hveq : (v == "") with
        | true => simp [hveq] at hk
        | false =>
            simp only [hveq] at hk
            have hk2 : (k, MergedVal.str v) = kv := by simpa using hk
            exact ⟨v, by rw [← hk2], beq_eq_false_iff_ne.mp hveq⟩
  · by_cases hpts : pts.isEmpty
    · rw [if_pos hpts] at h2
      simp at h2
    · right
      rw [if_neg hpts] at h2
      have h2' : kv = ("survey_points", MergedVal.pts pts) := by simpa using h2
      constructor
      · rw [h2']
      · intro hnil
        rw [hnil] at hpts
        exact hpts rfl

/-! The merged record exposes exactly the first-non-empty metadata values. -/

lemma extract_merge_lookup (pages : List Extracted) (f : String)
    (hf : f ∈ metadata_fields) :
    List.lookup f (extract_and_merge_survey pages) =
      (specFirstNonEmpty (pages.map fun p => pageMeta p f)).map MergedVal.str := by
  unfold extract_and_merge_survey
  rw [lookup_finalize_mem _ _ _ hf]
  unfold keptVal
  rw [mergeOutcomes_snd pages f hf]
  cases hv : specFirstNonEmpty (pages.map fun p => pageMeta p f) with
  | none => rfl
  | some s =>
      have hne : s ≠ "" := specFirstNonEmpty_ne_empty _ _ hv
      have : (s == "") = false := beq_eq_false_iff_ne.mpr hne
      simp [this]

/-! The selected-page loop run on indices that raise no IndexError agrees
with the all-page merge applied to the resolved page list. -/

lemma processSelectedAux_ok (pages : List Extracted) (sel : List Int)
    (pts : List SurveyPoint) (acc : String → Option String)
    (h : ∀ i ∈ sel, -(pages.length : Int) ≤ i) :
    processSelectedAux pages sel pts acc =
      Except.ok (mergeAux (resolvePages pages sel) pts acc) := by
  induction sel generalizing pts acc with
  | nil => rfl
  | cons i rest ih =>
      have hi : -(pages.length : Int) ≤ i := h i (List.mem_cons_self i rest)
      have hrest : ∀ j ∈ rest, -(pages.length : Int) ≤ j :=
        fun j hj => h j (List.mem_cons_of_mem i hj)
      by_cases hskip : i ≥ (pages.length : Int)
      · have hunfold : processSelectedAux pages (i :: rest) pts acc =
            processSelectedAux pages rest pts acc := by
          simp only [processSelectedAux, if_pos hskip]
        have hres : resolvePages pages (i :: rest) = resolvePages pages rest := by
          unfold resolvePages
          rw [List.filterMap_cons, if_pos hskip]
        rw [hunfold, hres]
        exact ih pts acc hrest
      · have hsome : ∃ page, pyGet pages i = some page := by
          unfold pyGet
          by_cases hpos : 0 ≤ i
          · have hlt : i.toNat < pages.length := by omega
            exact ⟨pages.get ⟨i.toNat, hlt⟩, by rw [if_pos hpos, List.get?_eq_get hlt]⟩
          · have hge : ¬ (i + (pages.length : Int) < 0) := by omega
            have hlt : (i + (pages.length : Int)).toNat < pages.length := by omega
            refine ⟨pages.get ⟨(i + (pages.length : Int)).toNat, hlt⟩, ?_⟩
            rw [if_neg hpos, if_neg hge, List.get?_eq_get hlt]
        rcases hsome with ⟨page, hpage⟩
        have hunfold : processSelectedAux pages (i :: rest) pts acc =
            processSelectedAux pages rest (pts ++ pagePoints page)
              (mergePageMeta (pageMeta page) acc) := by
          simp only [processSelectedAux, if_neg hskip, hpage]
        have hres : resolvePages pages (i :: rest) =
            page :: resolvePages pages rest := by
          unfold resolvePages
          rw [List.filterMap_cons, if_neg hskip, hpage]
        rw [hunfold, hres,
          ih (pts ++ pagePoints page) (mergePageMeta (pageMeta page) acc) hrest]
        rfl

lemma extract_selected_eq (pages : List Extracted) (sel : List Int)
    (h : ∀ i ∈ sel, -(pages.length : Int) ≤ i) :
    extract_selected_pages_survey pages sel =
      Except.ok (extract_and_merge_survey (resolvePages pages sel)) := by
  unfold extract_selected_pages_survey
  rw [processSelectedAux_ok pages sel [] (fun _ => none) h]
  rfl

/-! Any successful run of the selected-page loop, whatever the indices,
equals the all-page merge of the resolved page list. -/

lemma processSelectedAux_ok_eq (pages : List Extracted) (sel : List Int)
    (pts : List SurveyPoint) (acc : String → Option String)
    (r : List SurveyPoint × (String → Option String))
    (h : processSelectedAux pages sel pts acc = Except.ok r) :
    r = mergeAux (resolvePages pages sel) pts acc := by
  induction sel generalizing pts acc with
  | nil =>
      simp only [processSelectedAux, Except.ok.injEq] at h
      rw [← h]
      rfl
  | cons i rest ih =>
      by_cases hskip : i ≥ (pages.length : Int)
      · have hres : resolvePages pages (i :: rest) = resolvePages pages rest := by
          unfold resolvePages
          rw [List.filterMap_cons, if_pos hskip]
        simp only [processSelectedAux, if_pos hskip] at h
        rw [hres]
        exact ih pts acc h
      · cases hg : pyGet pages i with
        | none =>
            simp only [processSelectedAux, if_neg hskip, hg] at h
            cases h
        | some page =>
            have hres : resolvePages pages (i :: rest) =
                page :: resolvePages pages rest := by
              unfold resolvePages
              rw [List.filterMap_cons, if_neg hskip, hg]
            simp only [processSelectedAux, if_neg hskip, hg] at h
            rw [hres]
            exact ih (pts ++ pagePoints page) (mergePageMeta (pageMeta page) acc) h

lemma extract_selected_ok_eq (pages : List Extracted) (sel : List Int)
    (m : List (String × MergedVal))
    (h : extract_selected_pages_survey pages sel = Except.ok m) :
    m = extract_and_merge_survey (resolvePages pages sel) := by
  unfold extract_selected_pages_survey at h
  cases hps : processSelectedAux pages sel [] (fun _ => none) with
  | error e =>
      rw [hps] at h
      cases h
  | ok pa =>
      rcases pa with ⟨pts, acc⟩
      rw [hps] at h
      have hfm : finalize acc pts = m := by
        simpa using h
      have hpa := processSelectedAux_ok_eq pages sel [] (fun _ => none)
        (pts, acc) hps
      rw [← hfm]
      unfold extract_and_merge_survey mergeOutcomes
      rw [← hpa]

/-! Re-merging a finalized record whose point list is non-empty reproduces
it exactly. -/

lemma lookup_finalize_to_meta (acc : String → Option String)
    (pts : List SurveyPoint) (f : String) (hf : f ∈ metadata_fields) :
    metaOfMerged (finalize acc pts) f =
      match keptVal acc f with
      | some (MergedVal.str s) => some s
      | _ => none := by
  unfold metaOfMerged
  rw [lookup_finalize_mem _ _ _ hf]

lemma finalize_congr (a1 a2 : String → Option String) (pts : List SurveyPoint)
    (h : ∀ k ∈ metadata_fields, keptVal a1 k = keptVal a2 k) :
    finalize a1 pts = finalize a2 pts := by
  unfold finalize
  congr 1
  apply List.filterMap_congr
  intro k hk
  rw [h k hk]

lemma finalize_remerge (acc : String → Option String) (pts : List SurveyPoint) :
    finalize (mergePageMeta (metaOfMerged (finalize acc pts)) (fun _ => none)) pts =
      finalize acc pts := by
  apply finalize_congr
  intro k hk
  have hacc2 := mergePageMeta_mem (metaOfMerged (finalize acc pts))
    (fun _ => none) k hk
  have hmk := lookup_finalize_to_meta acc pts k hk
  unfold keptVal
  rw [hacc2]
  cases hacck : acc k with
  | none =>
      have hme : metaOfMerged (finalize acc pts) k = none := by
        rw [hmk]
        simp [keptVal, hacck]
      rw [hme]
      simp [pyEmpty]
  | some v =>
      cases hveq : (v == "") with
      | true =>
          have hme : metaOfMerged (finalize acc pts) k = none := by
            rw [hmk]
            simp [keptVal, hacck, hveq]
          rw [hme]
          simp [pyEmpty, hveq]
      | false =>
          have hme : metaOfMerged (finalize acc pts) k = some v := by
            rw [hmk]
            simp [keptVal, hacck, hveq]
          rw [hme]
          simp [pyEmpty, hveq]

/-! Concrete example records used by witnesses and counterexamples. -/

/-- Example page record with uwi ABC, no survey points, no other metadata. -/
def exP1 : DirectionalSurvey :=
  { uwi := "ABC", survey_points := [],
    operator := none, vendor := none, contact_info := none, county := none,
    method := none, north_ref := none,
    shl_lat := none, shl_lon := none, shl_x := none, shl_y := none,
    bhl_lat := none, bhl_lon := none, bhl_x := none, bhl_y := none,
    lease_location := none, job_number := none, map_zone := none,
    map_system := none, geo_datum := none, system_datum := none,
    ground_level_elevation := none, datum_elevation := none, date_created := none }

/-- Example survey point at measured depth 100. -/
def exPt100 : SurveyPoint := { md := 100, inc := 1, azi := 2, tvd := 99, ns := 3, ew := 4 }

/-- Example survey point at measured depth 200. -/
def exPt200 : SurveyPoint := { md := 200, inc := 5, azi := 6, tvd := 198, ns := 7, ew := 8 }

/-- Example page record with uwi XYZ and one survey point. -/
def exP2 : DirectionalSurvey := { exP1 with uwi := "XYZ", survey_points := [exPt100] }

/-- Example page record whose points arrive out of md order. -/
def exP3 : DirectionalSurvey := { exP1 with uwi := "W1", survey_points := [exPt200, exPt100] }

/-- A page outcome that failed extraction contributes no points and no
metadata. -/
lemma not_succeeded_contributes_nothing (p : Extracted)
    (h : extractionSucceeded p = false) :
    pagePoints p = [] ∧ pageMeta p = fun _ => none := by
  cases p with
  | ds d => simp [extractionSucceeded] at h
  | dict o m =>
      cases o with
      | none => exact ⟨rfl, rfl⟩
      | some l => simp [extractionSucceeded] at h
  | failure => exact ⟨rfl, rfl⟩

lemma flatten_nil_of_all_nil (ls : List (List SurveyPoint))
    (h : ∀ l ∈ ls, l = []) : ls.flatten = [] := by
  induction ls with
  | nil => rfl
  | cons l rest ih =>
      rw [List.flatten_cons, h l (List.mem_cons_self l rest),
        ih fun x hx => h x (List.mem_cons_of_mem l hx)]
      rfl

lemma flatten_filter_succeeded (pages : List Extracted) :
    (pages.map pagePoints).flatten =
      ((pages.filter extractionSucceeded).map pagePoints).flatten := by
  induction pages with
  | nil => rfl
  | cons p rest ih =>
      cases hp : extractionSucceeded p with
      | true => simp [List.filter_cons, hp, ih]
      | false =>
          have hnil := (not_succeeded_contributes_nothing p hp).1
          simp [List.filter_cons, hp, hnil, ih]

/-- C1: for every ordered sequence of per-page extraction outcomes and every
declared scalar metadata field, the merged document record assigns that field
the value of the first page, in page order, whose outcome provides a
non-null, non-empty value for it; values from later pages are discarded even
when they differ. -/
theorem C1_first_nonempty_wins (pages : List Extracted) (f : String)
    (hf : f ∈ metadata_fields) :
    List.lookup f (extract_and_merge_survey pages) =
      (specFirstNonEmpty (pages.map fun p => pageMeta p f)).map MergedVal.str :=
  extract_merge_lookup pages f hf

/-- Witness for C1 at the spec scenario: pages P1 (uwi ABC, no points) and
P2 (uwi XYZ, one point) merged in order give uwi ABC. -/
theorem C1_first_nonempty_wins_witness :
    List.lookup "uwi"
        (extract_and_merge_survey [Extracted.ds exP1, Extracted.ds exP2]) =
      some (MergedVal.str "ABC") :=
  (C1_first_nonempty_wins [Extracted.ds exP1, Extracted.ds exP2] "uwi"
    (by decide)).trans (by decide)

/-- C2: the merged survey point list is the concatenation, in page order, of
the per-page point lists; only pages whose extraction succeeded contribute;
there is no deduplication, so every point occurs as many times as it occurs
across the pages combined. -/
theorem C2_points_concatenated_no_dedup (pages : List Extracted) :
    mergedPoints (extract_and_merge_survey pages) = (pages.map pagePoints).flatten
    ∧ (pages.map pagePoints).flatten =
        ((pages.filter extractionSucceeded).map pagePoints).flatten
    ∧ ∀ pt : SurveyPoint,
        (mergedPoints (extract_and_merge_survey pages)).count pt =
          ((pages.map pagePoints).map (List.count pt)).sum := by
  have h1 : mergedPoints (extract_and_merge_survey pages) =
      (pages.map pagePoints).flatten := by
    unfold extract_and_merge_survey
    rw [mergedPoints_finalize, mergeOutcomes_fst]
  refine ⟨h1, flatten_filter_succeeded pages, fun pt => ?_⟩
  rw [h1, List.count_flatten]

/-- C4: the extraction schema is closed; an extraction backend output that
contains a field outside the declared DirectionalSurvey and SurveyPoint field
set fails validation for that page and the page contributes nothing, rather
than a record with the extra field included or dropped. -/
theorem C4_closed_schema_rejects_unknown_field (out : BackendOutput) (k : String)
    (hk : k ∈ out.keys) (hnot : k ∉ declaredSurveyFields) :
    extract_survey_structured out = Extracted.failure
    ∧ pagePoints (extract_survey_structured out) = []
    ∧ ∀ f, pageMeta (extract_survey_structured out) f = none := by
  have hcond : ¬ ((out.keys.all fun k => decide (k ∈ declaredSurveyFields)) = true) := by
    intro hall
    exact hnot (by simpa using List.all_eq_true.mp hall k hk)
  have hval : schemaValidate out = none := by
    unfold schemaValidate
    rw [if_neg hcond]
  have hfail : extract_survey_structured out = Extracted.failure := by
    unfold extract_survey_structured
    rw [hval]
  exact ⟨hfail, by rw [hfail]; rfl, fun f => by rw [hfail]; rfl⟩

/-- An example backend output carrying a field the schema does not declare. -/
def exBadOutput : BackendOutput :=
  { keys := ["uwi", "bogus_field"], parse := some exP1 }

/-- Witness for C4: an output with the undeclared key bogus_field fails. -/
theorem C4_closed_schema_witness :
    extract_survey_structured exBadOutput = Extracted.failure :=
  (C4_closed_schema_rejects_unknown_field exBadOutput "bogus_field"
    (by decide) (by decide)).1

/-- C5: a metadata field that received no non-null, non-empty value from any
page is absent from the final merged record, and no key of the final record
maps to a null. -/
theorem C5_unobserved_field_omitted (pages : List Extracted) (f : String)
    (hf : f ∈ metadata_fields)
    (h : ∀ p ∈ pages, pyEmpty (pageMeta p f) = true) :
    List.lookup f (extract_and_merge_survey pages) = none
    ∧ ∀ kv ∈ extract_and_merge_survey pages, kv.2 ≠ MergedVal.null := by
  constructor
  · rw [extract_merge_lookup pages f hf]
    have hfe : specFirstNonEmpty (pages.map fun p => pageMeta p f) = none := by
      unfold specFirstNonEmpty
      rw [List.find?_eq_none.mpr ?ha]
      case ha =>
        intro x hx
        rcases List.mem_map.mp hx with ⟨p, hp, rfl⟩
        rw [h p hp]
        simp
      rfl
    rw [hfe]
    rfl
  · intro kv hkv
    rcases finalize_val_sound (mergeOutcomes pages).2 (mergeOutcomes pages).1 kv
        hkv with ⟨s, hs, _⟩ | ⟨hp, _⟩
    · rw [hs]
      intro hc
      cases hc
    · rw [hp]
      intro hc
      cases hc

/-- Witness for C5: a merge of one page with no operator value yields a
record with no operator key. -/
theorem C5_unobserved_field_omitted_witness :
    List.lookup "operator" (extract_and_merge_survey [Extracted.ds exP2]) = none :=
  (C5_unobserved_field_omitted [Extracted.ds exP2] "operator"
    (by decide) (by decide)).1

/-- C7: processing an empty selection of page indices returns the empty
document record, with no survey points and no metadata keys, for every page
set. -/
theorem C7_empty_selection_empty_record (pages : List Extracted) :
    extract_selected_pages_survey pages [] = Except.ok [] := rfl

/-- C8 counterexample: merging the record merged from a single page with
uwi ABC and no survey points a second time, as a single-page outcome
sequence, yields the empty record instead of the original one: the merged
dict has no survey_points key, so the re-merge takes the contribution-free
else branch. -/
theorem C8_idempotence_counterexample :
    extract_and_merge_survey
        [outcomeOfMerged (extract_and_merge_survey [Extracted.ds exP1])] ≠
      extract_and_merge_survey [Extracted.ds exP1] := by decide

/-- C8 amended: whenever the merged record contains at least one survey
point (so its survey_points key is present), merging it again as a
single-page outcome sequence reproduces it identically. -/
theorem C8_remerge_with_points (pages : List Extracted)
    (h : mergedPoints (extract_and_merge_survey pages) ≠ []) :
    extract_and_merge_survey [outcomeOfMerged (extract_and_merge_survey pages)] =
      extract_and_merge_survey pages := by
  have hne : (mergeOutcomes pages).1 ≠ [] := by
    intro hnil
    apply h
    show mergedPoints
      (finalize (mergeOutcomes pages).2 (mergeOutcomes pages).1) = []
    rw [mergedPoints_finalize, hnil]
  have hni : ¬ ((mergeOutcomes pages).1.isEmpty = true) := by
    intro hx
    exact hne (List.isEmpty_iff.mp hx)
  have hlk : List.lookup "survey_points"
      (finalize (mergeOutcomes pages).2 (mergeOutcomes pages).1) =
      some (MergedVal.pts (mergeOutcomes pages).1) := by
    rw [lookup_finalize_sp, if_neg hni]
  have ho : outcomeOfMerged (extract_and_merge_survey pages) =
      Extracted.dict (some (mergeOutcomes pages).1)
        (metaOfMerged (extract_and_merge_survey pages)) := by
    unfold outcomeOfMerged
    rw [show extract_and_merge_survey pages =
      finalize (mergeOutcomes pages).2 (mergeOutcomes pages).1 from rfl, hlk]
  rw [ho]
  show finalize
      (mergePageMeta (metaOfMerged
        (finalize (mergeOutcomes pages).2 (mergeOutcomes pages).1))
        (fun _ => none))
      (mergeOutcomes pages).1 =
    extract_and_merge_survey pages
  exact finalize_remerge (mergeOutcomes pages).2 (mergeOutcomes pages).1

/-- Witness for the amended C8: re-merging the merged record of a page with
one survey point reproduces it exactly. -/
theorem C8_remerge_with_points_witness :
    extract_and_merge_survey
        [outcomeOfMerged (extract_and_merge_survey [Extracted.ds exP2])] =
      extract_and_merge_survey [Extracted.ds exP2] :=
  C8_remerge_with_points [Extracted.ds exP2] (by decide)

/-- Every key of a finalized merged record maps to a value that is neither
null nor the empty string; the survey_points key is present exactly when the
page list contributed a point, with the non-empty concatenation as value;
and an all-failure page list merges to the empty record. -/
lemma merged_invariant_all (pages : List Extracted) :
    (∀ kv ∈ extract_and_merge_survey pages,
        kv.2 ≠ MergedVal.null ∧ kv.2 ≠ MergedVal.str "")
    ∧ (List.lookup "survey_points" (extract_and_merge_survey pages) =
        if ((pages.map pagePoints).flatten).isEmpty then none
        else some (MergedVal.pts ((pages.map pagePoints).flatten)))
    ∧ ((∀ p ∈ pages, extractionSucceeded p = false) →
        extract_and_merge_survey pages = []) := by
  have hval : ∀ kv ∈ extract_and_merge_survey pages,
      kv.2 ≠ MergedVal.null ∧ kv.2 ≠ MergedVal.str "" := by
    intro kv hkv
    rcases finalize_val_sound (mergeOutcomes pages).2 (mergeOutcomes pages).1
        kv hkv with ⟨s, hs, hne⟩ | ⟨hp, _⟩
    · constructor
      · rw [hs]
        intro hc
        cases hc
      · rw [hs]
        intro hc
        exact hne (MergedVal.str.inj hc)
    · constructor
      · rw [hp]
        intro hc
        cases hc
      · rw [hp]
        intro hc
        cases hc
  refine ⟨hval, ?_, ?_⟩
  · show List.lookup "survey_points"
        (finalize (mergeOutcomes pages).2 (mergeOutcomes pages).1) = _
    rw [lookup_finalize_sp, mergeOutcomes_fst]
  · intro hall
    have hcontrib := fun p hp => not_succeeded_contributes_nothing p (hall p hp)
    have hpts : (mergeOutcomes pages).1 = [] := by
      rw [mergeOutcomes_fst]
      apply flatten_nil_of_all_nil
      intro l hl
      rcases List.mem_map.mp hl with ⟨p, hp, rfl⟩
      exact (hcontrib p hp).1
    have hacc : ∀ k ∈ metadata_fields,
        keptVal (mergeOutcomes pages).2 k = none := by
      intro k hk
      unfold keptVal
      rw [mergeOutcomes_snd pages k hk]
      have hfe : specFirstNonEmpty (pages.map fun p => pageMeta p k) = none := by
        unfold specFirstNonEmpty
        rw [List.find?_eq_none.mpr ?ha]
        case ha =>
          intro x hx
          rcases List.mem_map.mp hx with ⟨p, hp, rfl⟩
          rw [(hcontrib p hp).2]
          simp [pyEmpty]
        rfl
      rw [hfe]
    have hnil : (metadata_fields.filterMap fun k =>
        (keptVal (mergeOutcomes pages).2 k).map fun v => (k, v)) = [] := by
      rw [List.filterMap_eq_nil_iff]
      intro k hk
      rw [hacc k hk]
      rfl
    show finalize (mergeOutcomes pages).2 (mergeOutcomes pages).1 = []
    unfold finalize
    rw [hnil, hpts]
    rfl

/-- C9: every key of a record returned by extract_and_merge_survey or by
extract_selected_pages_survey maps to a value that is neither null nor the
empty string; in both cases the survey_points key is present exactly when
some processed page contributed a point (for the selected variant, the
pages its loop resolves from the selection), and then holds the non-empty
concatenated list; a merge in which no processed page succeeded returns the
empty record, with no uwi and no survey_points key. -/
theorem C9_merged_record_invariant (pages : List Extracted) (sel : List Int) :
    (∀ kv ∈ extract_and_merge_survey pages,
        kv.2 ≠ MergedVal.null ∧ kv.2 ≠ MergedVal.str "")
    ∧ (List.lookup "survey_points" (extract_and_merge_survey pages) =
        if ((pages.map pagePoints).flatten).isEmpty then none
        else some (MergedVal.pts ((pages.map pagePoints).flatten)))
    ∧ ((∀ p ∈ pages, extractionSucceeded p = false) →
        extract_and_merge_survey pages = [])
    ∧ (∀ m, extract_selected_pages_survey pages sel = Except.ok m →
        (∀ kv ∈ m, kv.2 ≠ MergedVal.null ∧ kv.2 ≠ MergedVal.str "")
        ∧ List.lookup "survey_points" m =
            (if (((resolvePages pages sel).map pagePoints).flatten).isEmpty
             then none
             else some (MergedVal.pts
               (((resolvePages pages sel).map pagePoints).flatten)))
        ∧ ((∀ p ∈ resolvePages pages sel, extractionSucceeded p = false) →
            m = [])) := by
  obtain ⟨h1, h2, h3⟩ := merged_invariant_all pages
  refine ⟨h1, h2, h3, ?_⟩
  intro m hm
  rw [extract_selected_ok_eq pages sel m hm]
  exact merged_invariant_all (resolvePages pages sel)

/-- Witness for C9: a one-page document whose page failed extraction merges
to the empty record, and a selected-page merge of a page with one point
yields a record whose survey_points key holds that point. -/
theorem C9_merged_record_invariant_witness :
    extract_and_merge_survey [Extracted.failure] = []
    ∧ List.lookup "survey_points"
        (extract_and_merge_survey [Extracted.ds exP2]) =
      some (MergedVal.pts [exPt100]) :=
  ⟨(C9_merged_record_invariant [Extracted.failure] []).2.2.1 (by decide),
   (((C9_merged_record_invariant [Extracted.ds exP2] [0]).2.2.2
        (extract_and_merge_survey [Extracted.ds exP2]) (by rfl)).2.1).trans
     (by decide)⟩

/-- C10: the out-of-range guard only tests indices at or above the page
count; a negative index -k with 1 le k le page count is processed, not
skipped, and selects the page k-th from the end, so -1 selects the last
page. -/
theorem C10_negative_index_selects_from_end (pages : List Extracted) (k : Nat)
    (h1 : 1 ≤ k) (h2 : k ≤ pages.length) :
    extract_selected_pages_survey pages [-(k : Int)] =
      Except.ok (extract_and_merge_survey
        [pages.get ⟨pages.length - k,
          Nat.sub_lt (Nat.lt_of_lt_of_le h1 h2) h1⟩]) := by
  have hlt : pages.length - k < pages.length :=
    Nat.sub_lt (Nat.lt_of_lt_of_le h1 h2) h1
  have hb : ∀ i ∈ [-(k : Int)], -(pages.length : Int) ≤ i := by
    intro i hi
    rcases List.mem_singleton.mp hi with rfl
    omega
  have hc1 : ¬ (-(k : Int) ≥ (pages.length : Int)) := by omega
  have hc2 : ¬ ((0 : Int) ≤ -(k : Int)) := by omega
  have hc3 : ¬ (-(k : Int) + (pages.length : Int) < 0) := by omega
  have hidx : (-(k : Int) + (pages.length : Int)).toNat = pages.length - k := by
    omega
  have hres : resolvePages pages [-(k : Int)] =
      [pages.get ⟨pages.length - k, hlt⟩] := by
    unfold resolvePages pyGet
    rw [List.filterMap_cons, if_neg hc1, if_neg hc2, if_neg hc3, hidx,
      List.get?_eq_get hlt]
    rfl
  rw [extract_selected_eq pages _ hb, hres]

/-- Witness for C10: on a two-page document, index -1 passes the guard and
processes the last page. -/
theorem C10_negative_index_witness :
    extract_selected_pages_survey [Extracted.ds exP1, Extracted.ds exP2]
        [-(1 : Int)] =
      Except.ok (extract_and_merge_survey [Extracted.ds exP2]) :=
  C10_negative_index_selects_from_end [Extracted.ds exP1, Extracted.ds exP2] 1
    (by decide) (by decide)

/-! The display table is a sorted permutation of the stored point list. -/

lemma displayTable_perm (survey : List (String × MergedVal)) :
    (displayTable survey).Perm (mergedPoints survey) := by
  unfold displayTable mergedPoints
  cases hlk : List.lookup "survey_points" survey with
  | none => simp
  | some v =>
      cases v with
      | null => simp
      | str s => simp
      | pts l =>
          cases hl : l.isEmpty with
          | true =>
              rw [List.isEmpty_iff.mp hl]
              simp
          | false =>
              simp only [hl, Bool.false_eq_true, if_false]
              exact List.perm_insertionSort _ l

lemma displayTable_sorted (survey : List (String × MergedVal)) :
    (displayTable survey).Sorted fun a b => a.md ≤ b.md := by
  haveI : IsTotal SurveyPoint fun a b => a.md ≤ b.md :=
    ⟨fun a b => Int.le_total a.md b.md⟩
  haveI : IsTrans SurveyPoint fun a b => a.md ≤ b.md :=
    ⟨fun a b c hab hbc => le_trans hab hbc⟩
  unfold displayTable
  cases hlk : List.lookup "survey_points" survey with
  | none => simp
  | some v =>
      cases v with
      | null => simp
      | str s => simp
      | pts l =>
          cases hl : l.isEmpty with
          | true => simp [hl]
          | false =>
              simp only [hl, Bool.false_eq_true, if_false]
              exact List.sorted_insertionSort _ l

/-! Lookup lemmas for Python dict assignment on the merged record. -/

lemma lookup_eq_none_of_no_key (m : List (String × MergedVal)) (k : String)
    (h : ∀ kv ∈ m, (kv.1 == k) = false) : List.lookup k m = none := by
  induction m with
  | nil => rfl
  | cons kv rest ih =>
      rcases kv with ⟨k1, v1⟩
      have h1 : (k1 == k) = false := h (k1, v1) (List.mem_cons_self _ _)
      have h2 : (k == k1) = false := by
        rw [beq_eq_false_iff_ne] at h1 ⊢
        exact fun he => h1 he.symm
      rw [List.lookup_cons]
      simp only [h2]
      exact ih fun kv hkv => h kv (List.mem_cons_of_mem _ hkv)

lemma lookup_map_setVal (m : List (String × MergedVal)) (k : String)
    (v : MergedVal) (h : (m.any fun kv => kv.1 == k) = true) :
    List.lookup k (m.map fun kv => if kv.1 == k then (kv.1, v) else kv) =
      some v := by
  induction m with
  | nil => simp at h
  | cons kv rest ih =>
      rcases kv with ⟨k1, v1⟩
      cases hk : (k1 == k) with
      | true =>
          have hk2 : (k == k1) = true := by
            rw [beq_iff_eq] at hk ⊢
            exact hk.symm
          rw [List.map_cons]
          have hhead : (if (((k1, v1).1 == k) = true) then ((k1, v1).1, v)
              else (k1, v1)) = (k1, v) := by
            simp [hk]
          rw [hhead, List.lookup_cons, hk2]
      | false =>
          have hk2 : (k == k1) = false := by
            rw [beq_eq_false_iff_ne] at hk ⊢
            exact fun he => hk he.symm
          have hrest : (rest.any fun kv => kv.1 == k) = true := by
            simpa [List.any_cons, hk] using h
          rw [List.map_cons]
          have hhead : (if (((k1, v1).1 == k) = true) then ((k1, v1).1, v)
              else (k1, v1)) = (k1, v1) := by
            simp [hk]
          rw [hhead, List.lookup_cons, hk2]
          exact ih hrest

lemma mergedPoints_setKey (m : List (String × MergedVal))
    (table : List SurveyPoint) :
    mergedPoints (setKey m "survey_points" (MergedVal.pts table)) = table := by
  unfold mergedPoints setKey
  cases hany : (m.any fun kv => kv.1 == "survey_points") with
  | true =>
      simp only [hany, if_true]
      rw [lookup_map_setVal m "survey_points" (MergedVal.pts table) hany]
  | false =>
      have hnone : List.lookup "survey_points" m = none := by
        apply lookup_eq_none_of_no_key
        intro kv hkv
        have hne := List.any_eq_false.mp hany kv hkv
        cases hx : (kv.1 == "survey_points") with
        | false => rfl
        | true => exact absurd hx hne
      simp only [hany, Bool.false_eq_true, if_false]
      rw [lookup_append_mv, hnone]
      simp [List.lookup_cons]

/-- C3 counterexample: on a page whose points arrive out of md order, the
wired Process chain leaves the survey store holding the md-sorted point
list, not the page-extraction order that extract_selected_pages_survey
produced: presenting the md-sorted view does mutate the stored order that
subsequent re-merges and re-exports read, so the claimed invariance fails. -/
theorem C3_display_sort_counterexample :
    storeAfterProcess [Extracted.ds exP3] [0] =
        Except.ok [("uwi", MergedVal.str "W1"),
          ("survey_points", MergedVal.pts [exPt100, exPt200])]
    ∧ extract_selected_pages_survey [Extracted.ds exP3] [0] =
        Except.ok [("uwi", MergedVal.str "W1"),
          ("survey_points", MergedVal.pts [exPt200, exPt100])]
    ∧ storeAfterProcess [Extracted.ds exP3] [0] ≠
        extract_selected_pages_survey [Extracted.ds exP3] [0] := by
  refine ⟨by rfl, by rfl, ?_⟩
  intro hcontra
  have h1 : ([exPt100, exPt200] : List SurveyPoint) = [exPt200, exPt100] := by
    have h2 : Except.ok (α := List (String × MergedVal))
        (ε := Unit) [("uwi", MergedVal.str "W1"),
          ("survey_points", MergedVal.pts [exPt100, exPt200])] =
        Except.ok [("uwi", MergedVal.str "W1"),
          ("survey_points", MergedVal.pts [exPt200, exPt100])] := hcontra
    have h3 := Except.ok.inj h2
    have h4 := List.tail_eq_of_cons_eq h3
    have h5 := List.head_eq_of_cons_eq h4
    have h6 : MergedVal.pts [exPt100, exPt200] =
        MergedVal.pts [exPt200, exPt100] := congrArg Prod.snd h5
    exact MergedVal.pts.inj h6
  exact absurd h1 (by decide)

/-- C3 amended: inside process_selected_pages the display sort is
non-mutating — the survey store output is exactly the merged record with
points in page-extraction append order, and the table is its permutation
sorted by ascending md — but the programmatic table update then fires
update_survey_from_table, which assigns the sorted table back to the
survey_points entry, so the store that subsequent re-merges and re-exports
read holds the md-sorted permutation of the merged points rather than the
append order. -/
theorem C3_display_sort_amended (pages : List Extracted) (sel : List Int)
    (survey : List (String × MergedVal)) (table : List SurveyPoint)
    (h : process_selected_pages pages sel = Except.ok (survey, table)) :
    extract_selected_pages_survey pages sel = Except.ok survey
    ∧ table.Perm (mergedPoints survey)
    ∧ table.Sorted (fun a b => a.md ≤ b.md)
    ∧ storeAfterProcess pages sel =
        Except.ok (update_survey_from_table table survey)
    ∧ mergedPoints (update_survey_from_table table survey) = table := by
  have hstore : storeAfterProcess pages sel =
      Except.ok (update_survey_from_table table survey) := by
    unfold storeAfterProcess
    rw [h]
  unfold process_selected_pages at h
  cases hx : extract_selected_pages_survey pages sel with
  | error e =>
      rw [hx] at h
      cases h
  | ok s =>
      rw [hx] at h
      have hpair : s = survey ∧ displayTable s = table := by
        have h2 : (s, displayTable s) = (survey, table) := by
          simpa using h
        exact ⟨congrArg Prod.fst h2, congrArg Prod.snd h2⟩
      rcases hpair with ⟨rfl, htab⟩
      refine ⟨rfl, htab ▸ displayTable_perm s, htab ▸ displayTable_sorted s,
        hstore, ?_⟩
      unfold update_survey_from_table
      cases hse : s.isEmpty with
      | true =>
          have hsnil : s = [] := List.isEmpty_iff.mp hse
          have htnil : table = [] := by
            rw [← htab, hsnil]
            rfl
          rw [hsnil, htnil]
          rfl
      | false =>
          simp only [hse, Bool.false_eq_true, if_false]
          exact mergedPoints_setKey s table

/-- Witness for the amended C3 on a page whose points arrive out of md
order: the processing callback stores the extraction order and shows the
sorted table, and the chained table update rewrites the store with the
sorted list. -/
theorem C3_display_sort_amended_witness :
    extract_selected_pages_survey [Extracted.ds exP3] [0] =
        Except.ok [("uwi", MergedVal.str "W1"),
          ("survey_points", MergedVal.pts [exPt200, exPt100])]
    ∧ ([exPt100, exPt200]).Perm
        (mergedPoints [("uwi", MergedVal.str "W1"),
          ("survey_points", MergedVal.pts [exPt200, exPt100])])
    ∧ ([exPt100, exPt200]).Sorted (fun a b => a.md ≤ b.md)
    ∧ storeAfterProcess [Extracted.ds exP3] [0] =
        Except.ok (update_survey_from_table [exPt100, exPt200]
          [("uwi", MergedVal.str "W1"),
            ("survey_points", MergedVal.pts [exPt200, exPt100])])
    ∧ mergedPoints (update_survey_from_table [exPt100, exPt200]
          [("uwi", MergedVal.str "W1"),
            ("survey_points", MergedVal.pts [exPt200, exPt100])]) =
        [exPt100, exPt200] :=
  C3_display_sort_amended [Extracted.ds exP3] [0]
    [("uwi", MergedVal.str "W1"),
      ("survey_points", MergedVal.pts [exPt200, exPt100])]
    [exPt100, exPt200] (by rfl)

/-- C6: the selection callback returns the checked page indices sorted
ascending and depends only on which indices are checked, not on their
collection order; running the merge on a sorted, in-range, duplicate-free
selection processes exactly the selected pages in their original relative
page order. -/
theorem C6_subset_selection_original_order
    (checkbox_values checkbox_values' : List Bool)
    (checkbox_ids checkbox_ids' : List Nat) (pages_data : List Extracted)
    (sel : List Nat) :
    List.Sorted (fun a b => a ≤ b)
        (update_page_selection_from_checkboxes checkbox_values checkbox_ids
          pages_data)
    ∧ ((collectChecked checkbox_values checkbox_ids).Perm
          (collectChecked checkbox_values' checkbox_ids') →
        update_page_selection_from_checkboxes checkbox_values checkbox_ids
            pages_data =
          update_page_selection_from_checkboxes checkbox_values' checkbox_ids'
            pages_data)
    ∧ (List.Sorted (fun a b => a < b) sel →
        (∀ i ∈ sel, i < pages_data.length) →
        extract_selected_pages_survey pages_data (sel.map Int.ofNat) =
          Except.ok (extract_and_merge_survey
            (((List.range pages_data.length).filter fun i =>
              decide (i ∈ sel)).filterMap fun i => pages_data.get? i))) := by
  refine ⟨?_, ?_, ?_⟩
  · unfold update_page_selection_from_checkboxes
    cases hpd : pages_data.isEmpty with
    | true => simp [hpd]
    | false =>
        simp only [hpd, Bool.false_eq_true, if_false]
        exact List.sorted_insertionSort _ _
  · intro hperm
    unfold update_page_selection_from_checkboxes
    cases hpd : pages_data.isEmpty with
    | true => simp [hpd]
    | false =>
        simp only [hpd, Bool.false_eq_true, if_false]
        exact List.eq_of_perm_of_sorted
          (((List.perm_insertionSort _ _).trans hperm).trans
            (List.perm_insertionSort _ _).symm)
          (List.sorted_insertionSort _ _) (List.sorted_insertionSort _ _)
  · intro hsort hvalid
    have hb : ∀ i ∈ sel.map Int.ofNat, -(pages_data.length : Int) ≤ i := by
      intro i hi
      rcases List.mem_map.mp hi with ⟨n, hn, rfl⟩
      have hco : Int.ofNat n = (n : Int) := rfl
      rw [hco]
      omega
    have h1 : resolvePages pages_data (sel.map Int.ofNat) =
        sel.filterMap fun i => pages_data.get? i := by
      unfold resolvePages
      rw [List.filterMap_map]
      apply List.filterMap_congr
      intro n hn
      have hlt := hvalid n hn
      have hco : Int.ofNat n = (n : Int) := rfl
      have hge : ¬ (Int.ofNat n ≥ (pages_data.length : Int)) := by
        rw [hco]
        omega
      have hpos : (0 : Int) ≤ Int.ofNat n := by
        rw [hco]
        omega
      show (if Int.ofNat n ≥ (pages_data.length : Int) then none
        else pyGet pages_data (Int.ofNat n)) = pages_data.get? n
      rw [if_neg hge]
      unfold pyGet
      rw [if_pos hpos]
      simp
    haveI : IsAntisymm Nat fun a b => a < b :=
      ⟨fun a b hab hba => absurd (hab.trans hba) (lt_irrefl a)⟩
    have hnodup : sel.Nodup := hsort.nodup
    have hnd2 : ((List.range pages_data.length).filter fun i =>
        decide (i ∈ sel)).Nodup := (List.nodup_range _).filter _
    have hsort2 : List.Sorted (fun a b => a < b)
        ((List.range pages_data.length).filter fun i => decide (i ∈ sel)) :=
      (List.pairwise_lt_range _).filter _
    have hperm : sel.Perm ((List.range pages_data.length).filter fun i =>
        decide (i ∈ sel)) := by
      rw [List.perm_ext_iff_of_nodup hnodup hnd2]
      intro a
      constructor
      · intro ha
        rw [List.mem_filter]
        exact ⟨List.mem_range.mpr (hvalid a ha), by simpa using ha⟩
      · intro ha
        rcases List.mem_filter.mp ha with ⟨_, hdec⟩
        simpa using hdec
    have hsel : sel = (List.range pages_data.length).filter fun i =>
        decide (i ∈ sel) :=
      List.eq_of_perm_of_sorted hperm hsort hsort2
    rw [extract_selected_eq pages_data _ hb, h1]
    nth_rewrite 1 [hsel]
    rfl

/-- Witness for C6: selecting pages 0 and 2 of a three-page document merges
exactly those two pages in original page order. -/
theorem C6_subset_selection_witness :
    extract_selected_pages_survey
        [Extracted.ds exP1, Extracted.ds exP3, Extracted.ds exP2]
        (([0, 2] : List Nat).map Int.ofNat) =
      Except.ok (extract_and_merge_survey
        [Extracted.ds exP1, Extracted.ds exP2]) :=
  (C6_subset_selection_original_order [] [] [] []
      [Extracted.ds exP1, Extracted.ds exP3, Extracted.ds exP2]
      [0, 2]).2.2 (by decide) (by decide)
